import Mathlib

/-
  Verification of the q3playground core (src/main.c): BSP loader and
  queries, the swept-box collision tracer, and the player-movement
  helpers.  The C code is shallowly embedded over exact rationals (ℚ
  replaces IEEE float); machine `int` indices appear as `Nat`/`Int` as
  the sign behaviour requires.  Array accesses through raw pointers are
  modelled with `List.getD` (a default value stands for whatever an
  in-range access of a well-formed map would produce; claims never hinge
  on out-of-range reads except where noted).  None of the embedded
  functions simplify the source's control flow: loops become structural
  recursion over the index lists the C `for` loops enumerate, and the
  unbounded BSP recursions take an explicit fuel argument (the C code
  terminates only on acyclic trees; every theorem quantifies over fuel
  or assumes enough of it).
-/

namespace Q3

/-- Three-component vector (the C code's `float[3]`), over ℚ. -/
structure Vec3 where
  x : ℚ
  y : ℚ
  z : ℚ
deriving DecidableEq, Repr

/-- Source macro `dot3`. -/
def dot3 (a b : Vec3) : ℚ := a.x * b.x + a.y * b.y + a.z * b.z

/-- Source macro `add3` (functional: returns the sum). -/
def add3 (a b : Vec3) : Vec3 := ⟨a.x + b.x, a.y + b.y, a.z + b.z⟩

/-- Componentwise difference, as computed inline in the source. -/
def sub3 (a b : Vec3) : Vec3 := ⟨a.x - b.x, a.y - b.y, a.z - b.z⟩

/-- Source macro `mul3_scalar` (functional). -/
def mul3_scalar (a : Vec3) (k : ℚ) : Vec3 := ⟨a.x * k, a.y * k, a.z * k⟩

/-- Indexing `v[i]` for i = 0, 1, 2 as the C code does on `float[3]`. -/
def Vec3.nth (v : Vec3) : Nat → ℚ
  | 0 => v.x
  | 1 => v.y
  | _ => v.z

/-- The zero vector (`clr3`). -/
def vzero : Vec3 := ⟨0, 0, 0⟩

instance : Inhabited Vec3 := ⟨vzero⟩

/-- `struct bsp_plane`: unit normal and signed distance from origin. -/
structure BspPlane where
  normal : Vec3
  dist : ℚ
deriving DecidableEq, Repr

instance : Inhabited BspPlane := ⟨⟨vzero, 0⟩⟩

/-- `struct bsp_node` (the fields the core reads: plane and both children).
The child encoding is the file's: non-negative = node index, negative =
leaf where the leaf id is `-child - 1`. -/
structure BspNode where
  plane : Nat
  child0 : Int
  child1 : Int
deriving DecidableEq, Repr

instance : Inhabited BspNode := ⟨⟨0, 0, 0⟩⟩

/-- `struct bsp_leaf` (the fields the tracer and renderer read). -/
structure BspLeaf where
  cluster : Int
  leafbrush : Nat
  n_leafbrushes : Nat
deriving DecidableEq, Repr

instance : Inhabited BspLeaf := ⟨⟨0, 0, 0⟩⟩

/-- `struct bsp_brush`. -/
structure BspBrush where
  brushside : Nat
  n_brushsides : Nat
  texture : Nat
deriving DecidableEq, Repr

instance : Inhabited BspBrush := ⟨⟨0, 0, 0⟩⟩

/-- `struct bsp_brushside` (the texture field is unused by the core). -/
structure BspBrushside where
  plane : Nat
deriving DecidableEq, Repr

instance : Inhabited BspBrushside := ⟨⟨0⟩⟩

/-- `struct bsp_texture` (only the contents bitfield matters to the core). -/
structure BspTexture where
  contents : Nat
deriving DecidableEq, Repr

instance : Inhabited BspTexture := ⟨⟨0⟩⟩

/-- The decoded lump views of `struct bsp_file` that the core components
read, plus the visdata header/bitmask block.  `sz_vecs` is the i32 the
file stores; `visdata_vecs` is the byte block after the 8-byte header. -/
structure BspMap where
  planes : List BspPlane
  nodes : List BspNode
  leaves : List BspLeaf
  leafbrushes : List Nat
  brushes : List BspBrush
  brushsides : List BspBrushside
  textures : List BspTexture
  sz_vecs : Int
  visdata_vecs : List Nat
deriving DecidableEq, Repr

/-- `CONTENTS_SOLID = 1`. -/
def CONTENTS_SOLID : Nat := 1

/-- `SURF_CLIP_EPSILON 0.125f`. -/
def SURF_CLIP_EPSILON : ℚ := 1/8

/-- `TW_STARTS_OUT = 1<<1`. -/
def TW_STARTS_OUT : Nat := 2

/-- `TW_ENDS_OUT = 1<<2`. -/
def TW_ENDS_OUT : Nat := 4

/-- `TW_ALL_SOLID = 1<<3`. -/
def TW_ALL_SOLID : Nat := 8

/-- `MOVEMENT_JUMP = 1<<1`. -/
def MOVEMENT_JUMP : Nat := 2

/-- `MOVEMENT_JUMP_THIS_FRAME = 1<<2`. -/
def MOVEMENT_JUMP_THIS_FRAME : Nat := 4

/-- `MOVEMENT_JUMPING = 1<<3` (set while airborne). -/
def MOVEMENT_JUMPING : Nat := 8

/-- `cl_movement_accelerate = 15`. -/
def cl_movement_accelerate : ℚ := 15

/-- `cl_movement_airaccelerate = 7`. -/
def cl_movement_airaccelerate : ℚ := 7

/-- `cl_movement_friction = 8`. -/
def cl_movement_friction : ℚ := 8

/-- `sv_max_speed = 320`. -/
def sv_max_speed : ℚ := 320

/-- `cl_stop_speed = 200`. -/
def cl_stop_speed : ℚ := 200

/-- `cpm_air_stop_acceleration = 2.5f`. -/
def cpm_air_stop_acceleration : ℚ := 5/2

/-- `cpm_strafe_acceleration = 70`. -/
def cpm_strafe_acceleration : ℚ := 70

/-- `cpm_wish_speed = 30`. -/
def cpm_wish_speed : ℚ := 30

/- ------------------------------------------------------------------ -/
/- BSP loader (`bsp_load`).                                            -/
/- ------------------------------------------------------------------ -/

/-- Byte read `data[i]` as a Nat (out of range reads 0; `bsp_load` only
reads inside the verified header region). -/
def readU8 (data : List UInt8) (i : Nat) : Nat := (data.getD i 0).toNat

/-- Little-endian 32-bit read starting at byte `i`. -/
def readU32 (data : List UInt8) (i : Nat) : Nat :=
  readU8 data i + 256 * readU8 data (i + 1) + 65536 * readU8 data (i + 2) +
    16777216 * readU8 data (i + 3)

/-- Little-endian `int` read (two's complement). -/
def readI32 (data : List UInt8) (i : Nat) : Int :=
  let n := readU32 data i
  if n < 2 ^ 31 then (n : Int) else (n : Int) - 2 ^ 32

/-- One `struct bsp_dirent`: byte offset and length of a lump. -/
structure BspDirent where
  offset : Int
  length : Int
deriving DecidableEq, Repr

instance : Inhabited BspDirent := ⟨⟨0, 0⟩⟩

/-- The decoded `struct bsp_header` view `bsp_load` establishes over the
raw file image: magic bytes, version, and the 17 directory entries. -/
structure BspHeaderView where
  magic : List UInt8
  version : Int
  dirents : List BspDirent
deriving DecidableEq, Repr

/-- `sizeof(struct bsp_header)` = 4 (magic) + 4 (version) + 17*8 (dirents). -/
def bsp_header_size : Nat := 144

/-- The bytes of the magic `"IBSP"`. -/
def ibsp_magic : List UInt8 := [0x49, 0x42, 0x53, 0x50]

/-- `bsp_load`, modelled on the byte image `read_entire_file` returned.
The C code fails only when the read fails or
`vec_len(p) < sizeof(struct bsp_header)`; on success it overlays the
header (magic, version, dirents) on the image and derives the typed lump
views.  Note that the source never compares the magic or the version. -/
def bsp_load (data : List UInt8) : Option BspHeaderView :=
  if data.length < bsp_header_size then none
  else
    some
      { magic := data.take 4
        version := readI32 data 4
        dirents :=
          (List.range 17).map fun i =>
            ⟨readI32 data (8 + 8 * i), readI32 data (12 + 8 * i)⟩ }

/-- The per-lump element count the loader computes:
`file->n_<lump> = dirents[i].length / sizeof(type)` (C `int` division). -/
def lump_count (h : BspHeaderView) (i : Nat) (record_size : Int) : Int :=
  Int.tdiv (h.dirents.getD i default).length record_size

/- ------------------------------------------------------------------ -/
/- BSP queries (`bsp_find_leaf`, `bsp_cluster_visible`).               -/
/- ------------------------------------------------------------------ -/

/-- The `while (index >= 0)` loop of `bsp_find_leaf`, with explicit fuel
(the C loop terminates only because the tree is acyclic). -/
def bsp_find_leaf_go (m : BspMap) (camera_pos : Vec3) : Nat → Int → Option Int
  | 0, index => if index < 0 then some ((-index) - 1) else none
  | fuel + 1, index =>
    if index < 0 then some ((-index) - 1)
    else
      let node := m.nodes.getD index.toNat default
      let plane := m.planes.getD node.plane default
      let distance := dot3 camera_pos plane.normal - plane.dist
      bsp_find_leaf_go m camera_pos fuel
        (if distance ≥ 0 then node.child0 else node.child1)

/-- `bsp_find_leaf`: descend from node 0; front child when
`pos·normal - dist ≥ 0`, else back child; a negative child `c` is leaf
`-c - 1`. -/
def bsp_find_leaf (m : BspMap) (fuel : Nat) (camera_pos : Vec3) : Option Int :=
  bsp_find_leaf_go m camera_pos fuel 0

/-- `bsp_cluster_visible`: the C function computes
`index = from * sz_vecs + target / 8` (C `int` division truncates toward
zero, hence `Int.tdiv`/`Int.tmod`) and returns
`(visdata_vecs[index] & (1 << (target % 8))) != 0` with no bounds or sign
guard.  An access outside the byte block, or a shift by a negative
amount, is undefined behaviour in C and is modelled as `none`. -/
def bsp_cluster_visible (m : BspMap) (fromCluster target : Int) : Option Bool :=
  let index : Int := fromCluster * m.sz_vecs + Int.tdiv target 8
  let bit : Int := Int.tmod target 8
  if 0 ≤ index ∧ index < m.visdata_vecs.length ∧ 0 ≤ bit then
    some ((m.visdata_vecs.getD index.toNat 0) &&& (1 <<< bit.toNat) != 0)
  else none

/- ------------------------------------------------------------------ -/
/- Plane index (`plane_type_for_normal`, `signbits_for_normal`).       -/
/- ------------------------------------------------------------------ -/

/-- `plane_type_for_normal`: PLANE_X = 0, PLANE_Y = 1, PLANE_Z = 2,
PLANE_NONAXIAL = 3. -/
def plane_type_for_normal (normal : Vec3) : Nat :=
  if normal.x = 1 ∨ normal.x = -1 then 0
  else if normal.y = 1 ∨ normal.y = -1 then 1
  else if normal.z = 1 ∨ normal.z = -1 then 2
  else 3

/-- `signbits_for_normal`: bit i set iff normal component i is negative.
`init_planes` precomputes these per plane; the tracer reads
`planes[plane_index].signbits`, which is exactly this function of the
plane's normal, so the embedding recomputes it at the use sites. -/
def signbits_for_normal (normal : Vec3) : Nat :=
  (if normal.x < 0 then 1 else 0) ||| (if normal.y < 0 then 2 else 0) |||
    (if normal.z < 0 then 4 else 0)

/- ------------------------------------------------------------------ -/
/- Tracer (`trace_brush`, `trace_leaf`, `trace_node`, `trace`).        -/
/- ------------------------------------------------------------------ -/

/-- `struct trace_work`.  The C caller leaves `plane` uninitialized and
`trace` never writes it unless a brush commits a clip plane; the model
starts it at `none`. -/
structure TraceWork where
  start : Vec3
  end_ : Vec3
  endpos : Vec3
  frac : ℚ
  flags : Nat
  mins : Vec3
  maxs : Vec3
  offsets : List Vec3
  plane : Option BspPlane
deriving DecidableEq, Repr

/-- The loop-local state of `trace_brush`: `start_frac`, `end_frac`,
`closest_plane` (uninitialized in C, only read after `start_frac > -1`
proves it was written), and the flags word it accumulates into
`work->flags`. -/
structure BrushWork where
  start_frac : ℚ
  end_frac : ℚ
  closest_plane : Option BspPlane
  flags : Nat
deriving DecidableEq, Repr

/-- The brushside's plane distance adjusted for the hitbox
(`dist = plane->dist - dot3(work->offsets[signbits], plane->normal)`)
subtracted from the projection of the (recentred) trace start:
`start_distance` in `trace_brush`. -/
def side_dist_start (w : TraceWork) (p : BspPlane) : ℚ :=
  dot3 w.start p.normal -
    (p.dist - dot3 (w.offsets.getD (signbits_for_normal p.normal) vzero) p.normal)

/-- `end_distance` in `trace_brush`. -/
def side_dist_end (w : TraceWork) (p : BspPlane) : ℚ :=
  dot3 w.end_ p.normal -
    (p.dist - dot3 (w.offsets.getD (signbits_for_normal p.normal) vzero) p.normal)

/-- One iteration of the brushside loop in `trace_brush`.  The returned
Bool is true when the C code hits the `return` that rejects the whole
brush (the flag writes before it persist, as in C). -/
def trace_brush_side (m : BspMap) (w : TraceWork) (side_index : Nat)
    (st : BrushWork) : BrushWork × Bool :=
  let plane_index := (m.brushsides.getD side_index default).plane
  let plane := m.planes.getD plane_index default
  let start_distance := side_dist_start w plane
  let end_distance := side_dist_end w plane
  let fl := if start_distance > 0 then st.flags ||| TW_STARTS_OUT else st.flags
  let fl := if end_distance > 0 then fl ||| TW_ENDS_OUT else fl
  let st := { st with flags := fl }
  if start_distance > 0 ∧
      (end_distance ≥ SURF_CLIP_EPSILON ∨ end_distance ≥ start_distance) then
    (st, true)
  else if start_distance ≤ 0 ∧ end_distance ≤ 0 then
    (st, false)
  else if start_distance > end_distance then
    let frac := (start_distance - SURF_CLIP_EPSILON) / (start_distance - end_distance)
    (if frac > st.start_frac then
        { st with start_frac := frac, closest_plane := some plane }
      else st, false)
  else
    let frac := (start_distance + SURF_CLIP_EPSILON) / (start_distance - end_distance)
    ({ st with end_frac := min st.end_frac frac }, false)

/-- The brushside loop of `trace_brush` over the side indices
`brush->brushside + i` for `i < n_brushsides`. -/
def trace_brush_sides (m : BspMap) (w : TraceWork) :
    List Nat → BrushWork → BrushWork × Bool
  | [], st => (st, false)
  | si :: rest, st =>
    match trace_brush_side m w si st with
    | (st', true) => (st', true)
    | (st', false) => trace_brush_sides m w rest st'

/-- `trace_brush`: clip the whole (recentred) segment against one convex
brush; commit `work.frac`/`work.plane` when the entering fraction beats
the current one, and zero `work.frac` when the flags accumulated so far
(across brushes!) show neither STARTS_OUT nor ENDS_OUT. -/
def trace_brush (m : BspMap) (w : TraceWork) (brush : BspBrush) : TraceWork :=
  let sides := (List.range brush.n_brushsides).map fun i => brush.brushside + i
  let r := trace_brush_sides m w sides ⟨-1, 1, none, w.flags⟩
  let st := r.1
  let w1 := { w with flags := st.flags }
  if r.2 then w1
  else
    let w2 :=
      if st.start_frac < st.end_frac ∧ st.start_frac > -1 ∧ st.start_frac < w1.frac
      then { w1 with frac := max st.start_frac 0, plane := st.closest_plane }
      else w1
    if w2.flags &&& (TW_STARTS_OUT ||| TW_ENDS_OUT) = 0 then { w2 with frac := 0 }
    else w2

/-- The leafbrush loop of `trace_leaf`: trace each solid, non-degenerate
brush and stop as soon as `work.frac` hits 0. -/
def trace_leaf_brushes (m : BspMap) : List Nat → TraceWork → TraceWork
  | [], w => w
  | lb :: rest, w =>
    let brush_index := m.leafbrushes.getD lb 0
    let brush := m.brushes.getD brush_index default
    let contents := (m.textures.getD brush.texture default).contents
    if brush.n_brushsides ≠ 0 ∧ contents &&& CONTENTS_SOLID ≠ 0 then
      let w' := trace_brush m w brush
      if w'.frac = 0 then w' else trace_leaf_brushes m rest w'
    else trace_leaf_brushes m rest w

/-- `trace_leaf` (patch collision is a TODO stub in the source and
contributes nothing). -/
def trace_leaf (m : BspMap) (w : TraceWork) (index : Nat) : TraceWork :=
  let leaf := m.leaves.getD index default
  trace_leaf_brushes m
    ((List.range leaf.n_leafbrushes).map fun i => leaf.leafbrush + i) w

/-- `trace_node`, with fuel for the tree recursion.  Mirrors the source:
leaf dispatch on negative index; axial planes use the single component
and `offset = work->maxs[type]`; non-axial planes use the full dot
product and offset 0 (point hitbox) or the hard-coded 2048; one-sided
descent when the segment is fully on one side (with slack 1); otherwise
split the segment at the clamped `frac1`/`frac2` and recurse near side
then far side. -/
def trace_node (m : BspMap) :
    Nat → TraceWork → Int → ℚ → ℚ → Vec3 → Vec3 → TraceWork
  | 0, w, _, _, _, _, _ => w
  | fuel + 1, w, index, start_frac, end_frac, start, end_ =>
    if index < 0 then trace_leaf m w ((-index) - 1).toNat
    else
      let node := m.nodes.getD index.toNat default
      let plane := m.planes.getD node.plane default
      let plane_type := plane_type_for_normal plane.normal
      let sde : ℚ × ℚ × ℚ :=
        if plane_type < 3 then
          (start.nth plane_type - plane.dist, end_.nth plane_type - plane.dist,
            w.maxs.nth plane_type)
        else
          (dot3 start plane.normal - plane.dist, dot3 end_ plane.normal - plane.dist,
            if w.mins = w.maxs then 0 else 2048)
      let start_distance := sde.1
      let end_distance := sde.2.1
      let offset := sde.2.2
      if start_distance ≥ offset + 1 ∧ end_distance ≥ offset + 1 then
        trace_node m fuel w node.child0 start_frac end_frac start end_
      else if start_distance < -offset - 1 ∧ end_distance < -offset - 1 then
        trace_node m fuel w node.child1 start_frac end_frac start end_
      else
        let sff : Nat × ℚ × ℚ :=
          if start_distance < end_distance then
            (1,
              (start_distance - offset + SURF_CLIP_EPSILON) /
                (start_distance - end_distance),
              (start_distance + offset + SURF_CLIP_EPSILON) /
                (start_distance - end_distance))
          else if start_distance > end_distance then
            (0,
              (start_distance + offset + SURF_CLIP_EPSILON) /
                (start_distance - end_distance),
              (start_distance - offset - SURF_CLIP_EPSILON) /
                (start_distance - end_distance))
          else (0, 1, 0)
        let side := sff.1
        let frac1 := max 0 (min 1 sff.2.1)
        let frac2 := max 0 (min 1 sff.2.2)
        let mid_frac1 := start_frac + (end_frac - start_frac) * frac1
        let mid1 := add3 start (mul3_scalar (sub3 end_ start) frac1)
        let w1 :=
          trace_node m fuel w (if side = 0 then node.child0 else node.child1)
            start_frac mid_frac1 start mid1
        let mid_frac2 := start_frac + (end_frac - start_frac) * frac2
        let mid2 := add3 start (mul3_scalar (sub3 end_ start) frac2)
        trace_node m fuel w1 (if side = 0 then node.child1 else node.child0)
          mid_frac2 end_frac mid2 end_

/-- The recentring offset `(mins[i] + maxs[i]) * 0.5f` of `trace`. -/
def center_offset (mins maxs : Vec3) : Vec3 :=
  mul3_scalar (add3 mins maxs) (1/2)

/-- The `trace_work` state `trace` prepares before descending: symmetric
`mins`/`maxs`, shifted `start`/`end`, the 8-entry corner offset table
indexed by signbits, `frac = 1`, `flags = 0` (and `plane` unwritten). -/
def trace_setup (start end_ mins maxs : Vec3) : TraceWork :=
  let off := center_offset mins maxs
  let tmins := sub3 mins off
  let tmaxs := sub3 maxs off
  { start := add3 start off
    end_ := add3 end_ off
    endpos := vzero
    frac := 1
    flags := 0
    mins := tmins
    maxs := tmaxs
    offsets :=
      [⟨tmins.x, tmins.y, tmins.z⟩, ⟨tmaxs.x, tmins.y, tmins.z⟩,
        ⟨tmins.x, tmaxs.y, tmins.z⟩, ⟨tmaxs.x, tmaxs.y, tmins.z⟩,
        ⟨tmins.x, tmins.y, tmaxs.z⟩, ⟨tmaxs.x, tmins.y, tmaxs.z⟩,
        ⟨tmins.x, tmaxs.y, tmaxs.z⟩, ⟨tmaxs.x, tmaxs.y, tmaxs.z⟩]
    plane := none }

/-- The work state after the tree descent of `trace` (before the endpos
computation). -/
def trace_work_result (m : BspMap) (fuel : Nat) (start end_ mins maxs : Vec3) :
    TraceWork :=
  let w0 := trace_setup start end_ mins maxs
  trace_node m fuel w0 0 0 1 w0.start w0.end_

/-- `trace`: recenter, descend from node 0 over the whole `[0,1]`
interval, then compute `endpos` from the unshifted caller segment. -/
def trace (m : BspMap) (fuel : Nat) (start end_ mins maxs : Vec3) : TraceWork :=
  let w := trace_work_result m fuel start end_ mins maxs
  if w.frac = 1 then { w with endpos := end_ }
  else { w with endpos := add3 start (mul3_scalar (sub3 end_ start) w.frac) }

/- ------------------------------------------------------------------ -/
/- Movement helpers (`apply_friction`, `apply_acceleration`).          -/
/- ------------------------------------------------------------------ -/

/-- The player globals the movement helpers read: `velocity`, the
`movement` flag word, and `noclip`. -/
structure PlayerState where
  velocity : Vec3
  movement : Nat
  noclip : Bool
deriving DecidableEq, Repr

/-- `apply_friction`.  The C function computes
`speed = sqrt(dot3(velocity, velocity))`; ℚ has no square root, so the
embedding takes `speed` as an argument and the theorems constrain it by
`0 ≤ speed` and `speed ^ 2 = dot3 velocity velocity`, which pin down the
same value.  Everything after that line is verbatim: skip while angled
for the air (jumping or jump-this-frame, unless noclip), zero the
horizontal components below speed 1, else rescale by
`max 0 (speed - control * cl_movement_friction * dt) / speed` with
`control = speed < cl_stop_speed ? cl_stop_speed : speed`. -/
def apply_friction (s : PlayerState) (delta_time : ℚ) (speed : ℚ) : Vec3 :=
  if s.noclip = false ∧
      (s.movement &&& MOVEMENT_JUMPING ≠ 0 ∨
        s.movement &&& MOVEMENT_JUMP_THIS_FRAME ≠ 0) then
    s.velocity
  else if speed < 1 then
    ⟨0, 0, s.velocity.z⟩
  else
    let control := if speed < cl_stop_speed then cl_stop_speed else speed
    let new_speed := max 0 (speed - control * cl_movement_friction * delta_time)
    mul3_scalar s.velocity (new_speed / speed)

/-- `apply_acceleration`: clamp wishspeed to `cpm_wish_speed` only when
`!noclip && (movement & MOVEMENT_JUMPING)`, then the Quake accelerate
step: `add = wishspeed - velocity·dir`; if `add ≤ 0` do nothing, else
add `min(accel*dt*wishspeed, add)` along `dir`. -/
def apply_acceleration (s : PlayerState) (delta_time : ℚ) (direction : Vec3)
    (wishspeed acceleration : ℚ) : Vec3 :=
  let ws :=
    if s.noclip = false ∧ s.movement &&& MOVEMENT_JUMPING ≠ 0 then
      min cpm_wish_speed wishspeed
    else wishspeed
  let cur_speed := dot3 s.velocity direction
  let add_speed := ws - cur_speed
  if add_speed ≤ 0 then s.velocity
  else
    let accel_speed := min (acceleration * delta_time * ws) add_speed
    add3 s.velocity (mul3_scalar direction accel_speed)

/-- The unclamped Quake accelerate step, written out following the
spec's step 7 ("let cur = velocity·dir; add = wishspeed - cur; if add ≤ 0
skip; else accel = min(a·dt·wishspeed, add); velocity += dir·accel").
Used to state which wishspeed `apply_acceleration` actually feeds it. -/
def accel_core (velocity direction : Vec3) (wishspeed acceleration delta_time : ℚ) :
    Vec3 :=
  let cur_speed := dot3 velocity direction
  let add_speed := wishspeed - cur_speed
  if add_speed ≤ 0 then velocity
  else
    let accel_speed := min (acceleration * delta_time * wishspeed) add_speed
    add3 velocity (mul3_scalar direction accel_speed)

/-- The wishspeed value `apply_acceleration` effectively uses. -/
def clamped_wishspeed (s : PlayerState) (wishspeed : ℚ) : ℚ :=
  if s.noclip = false ∧ s.movement &&& MOVEMENT_JUMPING ≠ 0 then
    min cpm_wish_speed wishspeed
  else wishspeed

/- ------------------------------------------------------------------ -/
/- Invariants and well-formedness predicates.                          -/
/- ------------------------------------------------------------------ -/

/-- The flag words reachable from 0 by OR-ing TW_STARTS_OUT and
TW_ENDS_OUT (TW_ALL_SOLID is never set anywhere in the source). -/
def flags_ok (f : Nat) : Prop := f = 0 ∨ f = 2 ∨ f = 4 ∨ f = 6

instance (f : Nat) : Decidable (flags_ok f) := by
  unfold flags_ok
  infer_instance

/-- The point at parameter `t` along the recentred trace segment. -/
def point_at (w : TraceWork) (t : ℚ) : Vec3 :=
  add3 w.start (mul3_scalar (sub3 w.end_ w.start) t)

/-- Signed distance of the trace point at parameter `t` from the
hitbox-adjusted brushside plane `p` (positive = outside the halfspace). -/
def plane_dist_at (w : TraceWork) (p : BspPlane) (t : ℚ) : ℚ :=
  dot3 (point_at w t) p.normal -
    (p.dist - dot3 (w.offsets.getD (signbits_for_normal p.normal) vzero) p.normal)

/-- Everything the trace recursion preserves about the work state. -/
structure TraceInv (w : TraceWork) : Prop where
  frac_nonneg : 0 ≤ w.frac
  frac_le_one : w.frac ≤ 1
  contact : w.frac = 1 ∨ w.frac = 0 ∨
    ∃ p, w.plane = some p ∧ 0 < plane_dist_at w p w.frac ∧
      plane_dist_at w p w.frac ≤ SURF_CLIP_EPSILON
  flags_dom : flags_ok w.flags
  embedded : w.flags = 0 → w.frac = 0 ∨ w.frac = 1
  degenerate : w.start = w.end_ → w.frac = 0 ∨ w.frac = 1

/-- The `trace_brush` loop invariant tying `start_frac` to the recorded
`closest_plane`: either nothing was committed yet (`start_frac = -1`) or
the committed plane satisfies the entering-side equations. -/
def brush_q (w : TraceWork) (st : BrushWork) : Prop :=
  st.start_frac = -1 ∨
    (-1 < st.start_frac ∧
      ∃ p, st.closest_plane = some p ∧ side_dist_end w p < side_dist_start w p ∧
        0 < side_dist_start w p ∧
        st.start_frac =
          (side_dist_start w p - SURF_CLIP_EPSILON) /
            (side_dist_start w p - side_dist_end w p))

/-- The work-state fields the trace recursion never writes (the segment,
the box and the corner table). -/
def same_geom (a b : TraceWork) : Prop :=
  a.start = b.start ∧ a.end_ = b.end_ ∧ a.mins = b.mins ∧ a.maxs = b.maxs ∧
    a.offsets = b.offsets

/-- Well-formed child pointer: negative children name a leaf in range,
non-negative children name a node strictly deeper in the flat array (the
topological order that makes the C recursion terminate). -/
def wf_child (m : BspMap) (i : Nat) (c : Int) : Prop :=
  (c < 0 ∧ (-c) - 1 < m.leaves.length) ∨ ((i : Int) < c ∧ c < m.nodes.length)

/-- Well-formed BSP tree: nonempty and every node's children in range /
strictly increasing (finite acyclic tree with in-range indices). -/
def wf_bsp (m : BspMap) : Prop :=
  0 < m.nodes.length ∧
    ∀ i, i < m.nodes.length →
      wf_child m i (m.nodes.getD i default).child0 ∧
        wf_child m i (m.nodes.getD i default).child1

instance (m : BspMap) (i : Nat) (c : Int) : Decidable (wf_child m i c) := by
  unfold wf_child
  infer_instance

instance (m : BspMap) : Decidable (wf_bsp m) := by
  unfold wf_bsp
  infer_instance

/- ------------------------------------------------------------------ -/
/- Concrete test maps.                                                 -/
/- ------------------------------------------------------------------ -/

/-- A minimal map: one splitting plane `z = 0`, node 0 sending `z ≥ 0`
to empty leaf 0 and `z < 0` to leaf 1, which holds the single solid
brush `z ≤ 0` (one brushside, solid texture).  Visdata is the spec's S1
block: `sz_vecs = 2`, vecs `[0b11, 0, 0b10, 0]`. -/
def boxMap : BspMap :=
  { planes := [⟨⟨0, 0, 1⟩, 0⟩]
    nodes := [⟨0, -1, -2⟩]
    leaves := [⟨0, 0, 0⟩, ⟨1, 0, 1⟩]
    leafbrushes := [0]
    brushes := [⟨0, 1, 0⟩]
    brushsides := [⟨0⟩]
    textures := [⟨1⟩]
    sz_vecs := 2
    visdata_vecs := [3, 0, 2, 0] }

/-- A map whose visdata byte 0 is zero, to exercise
`bsp_cluster_visible` on a negative cluster id whose raw index happens
to land back in range. -/
def visMap : BspMap :=
  { planes := []
    nodes := []
    leaves := []
    leafbrushes := []
    brushes := []
    brushsides := []
    textures := []
    sz_vecs := 2
    visdata_vecs := [0, 0, 2, 0] }

/- ================================================================== -/
/- Theorems.                                                           -/
/- ================================================================== -/

/-- Dot product is additive in the left argument. -/
lemma dot3_add3_left (a b c : Vec3) : dot3 (add3 a b) c = dot3 a c + dot3 b c := by
  simp only [dot3, add3]
  ring

/-- Dot product pulls scalar factors out of the left argument. -/
lemma dot3_mul3_scalar_left (a : Vec3) (k : ℚ) (b : Vec3) :
    dot3 (mul3_scalar a k) b = k * dot3 a b := by
  simp only [dot3, mul3_scalar]
  ring

/-- The bit test the C code writes (`(x & (1 << s)) != 0`) is `testBit`. -/
lemma and_shift_ne_zero (x s : Nat) : ((x &&& (1 <<< s)) != 0) = x.testBit s := by
  rw [Nat.shiftLeft_eq, one_mul, Nat.and_two_pow]
  cases h : x.testBit s <;> simp [h]

/- ------------------------------------------------------------------ -/
/- C4: loader validation.                                              -/
/- ------------------------------------------------------------------ -/

/-- C4 (amended): `bsp_load` succeeds exactly when the byte image is at
least header-sized (144 bytes); the magic and the version are read but
never compared, so a wrong-magic or wrong-version file still loads. -/
theorem bsp_load_checks_size_only (data : List UInt8) :
    (bsp_load data).isSome = true ↔ bsp_header_size ≤ data.length := by
  unfold bsp_load
  split <;> simp_all

set_option maxRecDepth 4000 in
/-- C4 counterexample: a 144-byte all-zero file has neither the "IBSP"
magic nor version 46, yet `bsp_load` accepts it, refuting the claim that
a wrong-magic or wrong-version file makes the load fail. -/
theorem bsp_load_accepts_wrong_magic :
    (bsp_load (List.replicate 144 (0 : UInt8))).isSome = true ∧
    (bsp_load (List.replicate 144 (0 : UInt8))).map BspHeaderView.magic =
      some (List.replicate 4 (0 : UInt8)) ∧
    List.replicate 4 (0 : UInt8) ≠ ibsp_magic ∧
    (bsp_load (List.replicate 144 (0 : UInt8))).map BspHeaderView.version = some 0 ∧
    (0 : Int) ≠ 46 := by
  refine ⟨by decide, ?_, by decide, ?_, by decide⟩ <;> decide

/- ------------------------------------------------------------------ -/
/- C5: cluster visibility lookup.                                      -/
/- ------------------------------------------------------------------ -/

/-- C5 (amended): for non-negative cluster ids whose byte index stays
inside the visdata block, `bsp_cluster_visible from to` returns bit
`to % 8` of byte `from * sz_vecs + to / 8`.  Negative ids are not
guarded: the C code computes the raw index anyway (see the
counterexample). -/
theorem bsp_cluster_visible_bit_lookup (m : BspMap) (f t : Nat)
    (hsz : 0 ≤ m.sz_vecs)
    (hidx : f * m.sz_vecs.toNat + t / 8 < m.visdata_vecs.length) :
    bsp_cluster_visible m (f : Int) (t : Int) =
      some (Nat.testBit (m.visdata_vecs.getD (f * m.sz_vecs.toNat + t / 8) 0)
        (t % 8)) := by
  have hdiv : Int.tdiv (t : Int) 8 = ((t / 8 : Nat) : Int) := by
    exact_mod_cast Int.ofNat_tdiv t 8
  have hmod : Int.tmod (t : Int) 8 = ((t % 8 : Nat) : Int) := by
    exact_mod_cast rfl
  have hsz' : (m.sz_vecs.toNat : Int) = m.sz_vecs := Int.toNat_of_nonneg hsz
  have hindex : (f : Int) * m.sz_vecs + Int.tdiv (t : Int) 8 =
      ((f * m.sz_vecs.toNat + t / 8 : Nat) : Int) := by
    rw [hdiv]
    conv_lhs => rw [← hsz']
    push_cast
    ring
  have hcond : (0 : Int) ≤ ((f * m.sz_vecs.toNat + t / 8 : Nat) : Int) ∧
      ((f * m.sz_vecs.toNat + t / 8 : Nat) : Int) < m.visdata_vecs.length ∧
      (0 : Int) ≤ ((t % 8 : Nat) : Int) :=
    ⟨Int.ofNat_nonneg _, by exact_mod_cast hidx, Int.ofNat_nonneg _⟩
  simp only [bsp_cluster_visible, hindex, hmod]
  rw [if_pos hcond, Int.toNat_natCast, Int.toNat_natCast, and_shift_ne_zero]

/-- C5 witness: cluster (0,0) on the concrete S1 visdata block. -/
theorem bsp_cluster_visible_bit_lookup_witness :
    (0 : Int) ≤ boxMap.sz_vecs ∧
    0 * boxMap.sz_vecs.toNat + 0 / 8 < boxMap.visdata_vecs.length ∧
    bsp_cluster_visible boxMap ((0 : Nat) : Int) ((0 : Nat) : Int) =
      some (Nat.testBit (boxMap.visdata_vecs.getD (0 * boxMap.sz_vecs.toNat + 0 / 8) 0)
        (0 % 8)) :=
  ⟨by decide, by decide,
    bsp_cluster_visible_bit_lookup boxMap 0 0 (by decide) (by decide)⟩

/-- C5 counterexample: with `sz_vecs = 2` and visdata byte 0 equal to 0,
the call `bsp_cluster_visible (-1) 16` computes raw index
`-1 * 2 + 16 / 8 = 0` and returns `some false`, refuting the claim that
a negative cluster id always yields true. -/
theorem bsp_cluster_visible_negative_not_guarded :
    bsp_cluster_visible visMap (-1) 16 = some false ∧
    bsp_cluster_visible visMap (-1) 16 ≠ some true := by
  refine ⟨by decide, by decide⟩

/- ------------------------------------------------------------------ -/
/- C9: the S1 PVS scenario.                                            -/
/- ------------------------------------------------------------------ -/

/-- C9: on the S1 visdata block (`sz_vecs = 2`,
vecs `[0b00000011, 0, 0b00000010, 0]`) the four specified lookups
evaluate as the spec states. -/
theorem cluster_visible_scenario_s1 :
    bsp_cluster_visible boxMap 0 0 = some true ∧
    bsp_cluster_visible boxMap 0 1 = some true ∧
    bsp_cluster_visible boxMap 1 0 = some false ∧
    bsp_cluster_visible boxMap 1 1 = some true := by
  refine ⟨by decide, by decide, by decide, by decide⟩

/- ------------------------------------------------------------------ -/
/- C6: find_leaf termination and range.                                -/
/- ------------------------------------------------------------------ -/

/-- The descent loop terminates with an in-range leaf id whenever the
map is well-formed and the fuel covers the remaining node-index budget. -/
lemma bsp_find_leaf_go_spec (m : BspMap) (p : Vec3) (hwf : wf_bsp m) :
    ∀ fuel (index : Int), 0 ≤ index → index < m.nodes.length →
      m.nodes.length - index.toNat ≤ fuel →
      ∃ l, bsp_find_leaf_go m p fuel index = some l ∧ 0 ≤ l ∧
        l < m.leaves.length := by
  intro fuel
  induction fuel with
  | zero =>
    intro index h0 hlt hfuel
    omega
  | succ fuel ih =>
    intro index h0 hlt hfuel
    have hnotneg : ¬index < 0 := not_lt.mpr h0
    have hi : index.toNat < m.nodes.length := by omega
    obtain ⟨hc0, hc1⟩ := hwf.2 index.toNat hi
    rw [bsp_find_leaf_go, if_neg hnotneg]
    set node := m.nodes.getD index.toNat default with hnode
    set next :=
      (if dot3 p (m.planes.getD node.plane default).normal -
          (m.planes.getD node.plane default).dist ≥ 0 then node.child0
        else node.child1) with hnext
    have hcnext : wf_child m index.toNat next := by
      rw [hnext]
      split
      · exact hc0
      · exact hc1
    rcases hcnext with ⟨hneg, hbound⟩ | ⟨hgt, hbound⟩
    · refine ⟨(-next) - 1, ?_, by omega, hbound⟩
      cases fuel with
      | zero => rw [bsp_find_leaf_go, if_pos hneg]
      | succ fuel' => rw [bsp_find_leaf_go, if_pos hneg]
    · have h0' : 0 ≤ next := by omega
      have : (index.toNat : Int) = index := Int.toNat_of_nonneg h0
      exact ih next h0' hbound (by omega)

/-- C6: on a well-formed map (finite acyclic tree encoded by strictly
increasing in-range child indices) and with fuel at least the node
count, `bsp_find_leaf` terminates and returns a leaf id in
`[0, n_leaves)`. -/
theorem bsp_find_leaf_terminates_in_range (m : BspMap) (fuel : Nat) (p : Vec3)
    (hwf : wf_bsp m) (hfuel : m.nodes.length ≤ fuel) :
    ∃ l, bsp_find_leaf m fuel p = some l ∧ 0 ≤ l ∧ l < m.leaves.length := by
  have h0 : (0 : Int) < m.nodes.length := by exact_mod_cast hwf.1
  exact bsp_find_leaf_go_spec m p hwf fuel 0 le_rfl h0 (by simp; omega)

/-- C6 witness: the two-leaf concrete map, fuel 10, position above the
floor plane. -/
theorem bsp_find_leaf_terminates_in_range_witness :
    wf_bsp boxMap ∧ boxMap.nodes.length ≤ 10 ∧
    ∃ l, bsp_find_leaf boxMap 10 ⟨0, 0, 5⟩ = some l ∧ 0 ≤ l ∧
      l < boxMap.leaves.length :=
  ⟨by decide, by decide,
    bsp_find_leaf_terminates_in_range boxMap 10 ⟨0, 0, 5⟩ (by decide) (by decide)⟩

/- ------------------------------------------------------------------ -/
/- C7: the air wishspeed clamp condition.                              -/
/- ------------------------------------------------------------------ -/

/-- C7 (amended): `apply_acceleration` clamps the wishspeed to
`cpm_wish_speed` exactly when noclip is off and MOVEMENT_JUMPING
(airborne) is set.  With noclip on, or with only JUMP_THIS_FRAME set
(the grounded jump frame), the unclamped wishspeed reaches the
accelerate step. -/
theorem apply_acceleration_clamp_condition (s : PlayerState) (dt : ℚ)
    (dir : Vec3) (w a : ℚ) :
    (s.noclip = true →
      apply_acceleration s dt dir w a = accel_core s.velocity dir w a dt) ∧
    (s.noclip = false → s.movement &&& MOVEMENT_JUMPING ≠ 0 →
      apply_acceleration s dt dir w a =
        accel_core s.velocity dir (min cpm_wish_speed w) a dt) ∧
    (s.noclip = false → s.movement &&& MOVEMENT_JUMPING = 0 →
      apply_acceleration s dt dir w a = accel_core s.velocity dir w a dt) := by
  refine ⟨fun h => ?_, fun h hj => ?_, fun h hj => ?_⟩
  · simp [apply_acceleration, accel_core, h]
  · simp [apply_acceleration, accel_core, h, hj]
  · simp [apply_acceleration, accel_core, h, hj]

/-- C7 counterexample: with noclip on, wishspeed 320 reaches the
accelerate step unclamped and the new forward speed is 320, not at most
`cpm_wish_speed = 30` as the claim's clamp would force. -/
theorem apply_acceleration_noclip_unclamped :
    (apply_acceleration ⟨⟨0, 0, 0⟩, 0, true⟩ 1 ⟨1, 0, 0⟩ 320 7).x = 320 ∧
    ¬((apply_acceleration ⟨⟨0, 0, 0⟩, 0, true⟩ 1 ⟨1, 0, 0⟩ 320 7).x ≤
        cpm_wish_speed) := by
  norm_num [apply_acceleration, dot3, add3, mul3_scalar, cpm_wish_speed]

/- ------------------------------------------------------------------ -/
/- C8: the friction step.                                              -/
/- ------------------------------------------------------------------ -/

/-- C8: on the ground (neither MOVEMENT_JUMPING nor JUMP_THIS_FRAME,
noclip off), with `speed` the magnitude of the velocity: below speed 1
the horizontal components are zeroed (z kept); otherwise the whole
velocity is scaled by `max 0 (speed - max(speed, 200) * 8 * dt) / speed`;
and concretely velocity (300,0,0) with dt = 0.1 leaves (60,0,0). -/
theorem apply_friction_formula (s : PlayerState) (dt speed : ℚ)
    (hnc : s.noclip = false)
    (hj : s.movement &&& MOVEMENT_JUMPING = 0)
    (hjtf : s.movement &&& MOVEMENT_JUMP_THIS_FRAME = 0)
    (hs : 0 ≤ speed) (hsq : speed ^ 2 = dot3 s.velocity s.velocity) :
    (speed < 1 → apply_friction s dt speed = ⟨0, 0, s.velocity.z⟩) ∧
    (1 ≤ speed →
      apply_friction s dt speed =
        mul3_scalar s.velocity
          (max 0 (speed - max speed cl_stop_speed * cl_movement_friction * dt) /
            speed)) ∧
    (s.velocity = ⟨300, 0, 0⟩ → dt = 1/10 → speed = 300 →
      apply_friction s dt speed = ⟨60, 0, 0⟩) := by
  have hskip : ¬(s.noclip = false ∧
      (s.movement &&& MOVEMENT_JUMPING ≠ 0 ∨
        s.movement &&& MOVEMENT_JUMP_THIS_FRAME ≠ 0)) := by
    simp [hnc, hj, hjtf]
  refine ⟨fun hlt => ?_, fun hge => ?_, fun hv hdt hsp => ?_⟩
  · simp only [apply_friction, if_neg hskip, if_pos hlt]
  · have hnlt : ¬speed < 1 := not_lt.mpr hge
    simp only [apply_friction, if_neg hskip, if_neg hnlt]
    rcases lt_or_le speed cl_stop_speed with hc | hc
    · rw [if_pos hc, max_eq_right hc.le]
    · rw [if_neg (not_lt.mpr hc), max_eq_left hc]
  · subst hdt hsp
    simp only [apply_friction, if_neg hskip, hv]
    norm_num [cl_stop_speed, cl_movement_friction, mul3_scalar]

/-- C8 witness: the S4 instance, velocity (300,0,0) on the ground with
dt = 0.1 and speed 300, ends with x-velocity 60. -/
theorem apply_friction_formula_witness :
    (⟨⟨300, 0, 0⟩, 0, false⟩ : PlayerState).noclip = false ∧
    (0 : Nat) &&& MOVEMENT_JUMPING = 0 ∧
    (0 : Nat) &&& MOVEMENT_JUMP_THIS_FRAME = 0 ∧
    (0 : ℚ) ≤ 300 ∧
    (300 : ℚ) ^ 2 = dot3 ⟨300, 0, 0⟩ ⟨300, 0, 0⟩ ∧
    apply_friction ⟨⟨300, 0, 0⟩, 0, false⟩ (1/10) 300 = ⟨60, 0, 0⟩ :=
  ⟨rfl, by decide, by decide, by norm_num, by norm_num [dot3],
    (apply_friction_formula ⟨⟨300, 0, 0⟩, 0, false⟩ (1/10) 300 rfl (by decide)
        (by decide) (by norm_num) (by norm_num [dot3])).2.2 rfl rfl rfl⟩

/- ------------------------------------------------------------------ -/
/- C10: acceleration never overshoots the wishspeed.                   -/
/- ------------------------------------------------------------------ -/

/-- C10: for a unit direction, `apply_acceleration` never pushes the
velocity component along `dir` past the effectively used (possibly
clamped) wishspeed, and leaves the velocity untouched when that
component already meets it. -/
theorem apply_acceleration_capped (s : PlayerState) (dt : ℚ) (dir : Vec3)
    (w a : ℚ) (hdir : dot3 dir dir = 1) (hw : 0 ≤ w) (ha : 0 ≤ a)
    (hdt : 0 ≤ dt) :
    dot3 (apply_acceleration s dt dir w a) dir ≤
      max (dot3 s.velocity dir) (clamped_wishspeed s w) ∧
    (clamped_wishspeed s w ≤ dot3 s.velocity dir →
      apply_acceleration s dt dir w a = s.velocity) := by
  have key : apply_acceleration s dt dir w a =
      (if clamped_wishspeed s w - dot3 s.velocity dir ≤ 0 then s.velocity
        else
          add3 s.velocity
            (mul3_scalar dir
              (min (a * dt * clamped_wishspeed s w)
                (clamped_wishspeed s w - dot3 s.velocity dir)))) := rfl
  rw [key]
  split_ifs with h
  · exact ⟨le_max_left _ _, fun _ => rfl⟩
  · constructor
    · rw [dot3_add3_left, dot3_mul3_scalar_left, hdir, mul_one]
      have hmin : min (a * dt * clamped_wishspeed s w)
          (clamped_wishspeed s w - dot3 s.velocity dir) ≤
          clamped_wishspeed s w - dot3 s.velocity dir := min_le_right _ _
      have : dot3 s.velocity dir +
          min (a * dt * clamped_wishspeed s w)
            (clamped_wishspeed s w - dot3 s.velocity dir) ≤
          clamped_wishspeed s w := by linarith
      exact this.trans (le_max_right _ _)
    · intro hle
      exact absurd (sub_nonpos.mpr hle) h

/-- C10 witness: airborne-free ground state, unit x direction,
wishspeed 320. -/
theorem apply_acceleration_capped_witness :
    dot3 ⟨1, 0, 0⟩ ⟨1, 0, 0⟩ = 1 ∧ (0 : ℚ) ≤ 320 ∧ (0 : ℚ) ≤ 7 ∧ (0 : ℚ) ≤ 1 ∧
    (dot3 (apply_acceleration ⟨⟨0, 0, 0⟩, 0, false⟩ 1 ⟨1, 0, 0⟩ 320 7) ⟨1, 0, 0⟩ ≤
        max (dot3 (⟨0, 0, 0⟩ : Vec3) ⟨1, 0, 0⟩)
          (clamped_wishspeed ⟨⟨0, 0, 0⟩, 0, false⟩ 320) ∧
      (clamped_wishspeed ⟨⟨0, 0, 0⟩, 0, false⟩ 320 ≤
          dot3 (⟨0, 0, 0⟩ : Vec3) ⟨1, 0, 0⟩ →
        apply_acceleration ⟨⟨0, 0, 0⟩, 0, false⟩ 1 ⟨1, 0, 0⟩ 320 7 = ⟨0, 0, 0⟩)) :=
  ⟨by norm_num [dot3], by norm_num, by norm_num, by norm_num,
    apply_acceleration_capped ⟨⟨0, 0, 0⟩, 0, false⟩ 1 ⟨1, 0, 0⟩ 320 7
      (by norm_num [dot3]) (by norm_num) (by norm_num) (by norm_num)⟩

/- ------------------------------------------------------------------ -/
/- Tracer invariants (C1, C2, C3).                                     -/
/- ------------------------------------------------------------------ -/

/-- The offset-adjusted plane distance varies affinely along the
recentred segment. -/
lemma plane_dist_at_linear (w : TraceWork) (p : BspPlane) (t : ℚ) :
    plane_dist_at w p t =
      side_dist_start w p + t * (side_dist_end w p - side_dist_start w p) := by
  simp only [plane_dist_at, point_at, side_dist_start, side_dist_end, dot3, add3,
    sub3, mul3_scalar]
  ring

/-- TW_ALL_SOLID is outside the reachable flag set. -/
lemma flags_ok_all_solid (f : Nat) (h : flags_ok f) : f &&& TW_ALL_SOLID = 0 := by
  rcases h with h | h | h | h <;> subst h <;> decide

/-- In the reachable flag set, carrying neither STARTS_OUT nor ENDS_OUT
means the whole word is zero. -/
lemma flags_ok_zero_of_and (f : Nat) (h : flags_ok f)
    (hz : f &&& (TW_STARTS_OUT ||| TW_ENDS_OUT) = 0) : f = 0 := by
  rcases h with h | h | h | h <;> subst h <;> first | rfl | exact absurd hz (by decide)

/-- One brushside step keeps the flag word in the reachable set. -/
lemma trace_brush_side_flags_ok (m : BspMap) (w : TraceWork) (si : Nat)
    (st : BrushWork) (h : flags_ok st.flags) :
    flags_ok (trace_brush_side m w si st).1.flags := by
  simp only [trace_brush_side]
  split_ifs <;> rcases h with h | h | h | h <;> simp only [h] <;> decide

/-- One brushside step only adds flag bits: a zero result means the
input was zero. -/
lemma trace_brush_side_flags_zero (m : BspMap) (w : TraceWork) (si : Nat)
    (st : BrushWork) (h : flags_ok st.flags) :
    (trace_brush_side m w si st).1.flags = 0 → st.flags = 0 := by
  simp only [trace_brush_side]
  split_ifs <;> rcases h with h | h | h | h <;> simp only [h] <;> decide

/-- The early brush rejection only fires after STARTS_OUT was just set,
so the flags cannot be zero on that path. -/
lemma trace_brush_side_early_flags (m : BspMap) (w : TraceWork) (si : Nat)
    (st : BrushWork) (h : flags_ok st.flags) :
    (trace_brush_side m w si st).2 = true →
      (trace_brush_side m w si st).1.flags ≠ 0 := by
  simp only [trace_brush_side]
  split_ifs <;> rcases h with h | h | h | h <;> simp only [h] <;>
    first | decide | tauto

/-- `end_frac` only shrinks. -/
lemma trace_brush_side_end_frac (m : BspMap) (w : TraceWork) (si : Nat)
    (st : BrushWork) :
    (trace_brush_side m w si st).1.end_frac ≤ st.end_frac := by
  simp only [trace_brush_side]
  split_ifs <;> simp [min_le_left]

/-- `brush_q` only depends on `start_frac` and `closest_plane`. -/
lemma brush_q_congr (w : TraceWork) (st st' : BrushWork)
    (h1 : st'.start_frac = st.start_frac)
    (h2 : st'.closest_plane = st.closest_plane) (h : brush_q w st) :
    brush_q w st' := by
  unfold brush_q at h ⊢
  rw [h1, h2]
  exact h

/-- One brushside step preserves the commit invariant. -/
lemma trace_brush_side_q (m : BspMap) (w : TraceWork) (si : Nat)
    (st : BrushWork) (h : brush_q w st) :
    brush_q w (trace_brush_side m w si st).1 := by
  have hge : -1 ≤ st.start_frac := by
    rcases h with h | ⟨h, _⟩
    · exact le_of_eq h.symm
    · exact le_of_lt h
  simp only [trace_brush_side]
  split_ifs with hf1 hf2 hret hboth henter hcommit
  all_goals try exact brush_q_congr w st _ rfl rfl h
  all_goals try
    exact Or.inr ⟨lt_of_le_of_lt hge (by assumption), _, rfl, by assumption,
      (by rcases not_and_or.mp (by assumption) with h' | h' <;>
        [exact not_le.mp h'; linarith [not_le.mp h', (by assumption : _ > _)]]),
      rfl⟩

/-- With a degenerate (zero-length) recentred segment the entering
branch never runs: `start_frac` and the committed plane are unchanged. -/
lemma trace_brush_side_degenerate (m : BspMap) (w : TraceWork) (si : Nat)
    (st : BrushWork) (hse : w.start = w.end_) :
    (trace_brush_side m w si st).1.start_frac = st.start_frac ∧
    (trace_brush_side m w si st).1.closest_plane = st.closest_plane := by
  have heq : ∀ p, side_dist_start w p = side_dist_end w p := by
    intro p
    unfold side_dist_start side_dist_end
    rw [hse]
  simp only [trace_brush_side]
  split_ifs <;> first
    | exact ⟨rfl, rfl⟩
    | (exfalso
       exact absurd (heq _) (by first | linarith [(by assumption : _ > _)]))

/-- The whole brushside loop: flags stay reachable and only grow, an
early rejection leaves a nonzero flag word, `end_frac` shrinks, the
commit invariant is preserved, and a degenerate segment never commits. -/
lemma trace_brush_sides_spec (m : BspMap) (w : TraceWork) (sides : List Nat) :
    ∀ st : BrushWork, flags_ok st.flags →
      flags_ok (trace_brush_sides m w sides st).1.flags ∧
      ((trace_brush_sides m w sides st).1.flags = 0 → st.flags = 0) ∧
      ((trace_brush_sides m w sides st).2 = true →
        (trace_brush_sides m w sides st).1.flags ≠ 0) ∧
      (trace_brush_sides m w sides st).1.end_frac ≤ st.end_frac ∧
      (brush_q w st → brush_q w (trace_brush_sides m w sides st).1) ∧
      (w.start = w.end_ →
        (trace_brush_sides m w sides st).1.start_frac = st.start_frac) := by
  induction sides with
  | nil =>
    intro st hok
    refine ⟨hok, fun h => h, ?_, le_refl _, fun h => h, fun _ => rfl⟩
    simp [trace_brush_sides]
  | cons si rest ih =>
    intro st hok
    rcases hstep : trace_brush_side m w si st with ⟨st', early⟩
    have hok' : flags_ok st'.flags := by
      have := trace_brush_side_flags_ok m w si st hok
      rwa [hstep] at this
    have hz : st'.flags = 0 → st.flags = 0 := fun h0 =>
      trace_brush_side_flags_zero m w si st hok (by rw [hstep]; exact h0)
    have hearly : early = true → st'.flags ≠ 0 := fun he => by
      have := trace_brush_side_early_flags m w si st hok (by rw [hstep]; exact he)
      rwa [hstep] at this
    have hef : st'.end_frac ≤ st.end_frac := by
      have := trace_brush_side_end_frac m w si st
      rwa [hstep] at this
    have hq : brush_q w st → brush_q w st' := fun h => by
      have := trace_brush_side_q m w si st h
      rwa [hstep] at this
    have hdeg : w.start = w.end_ → st'.start_frac = st.start_frac := fun h => by
      have := (trace_brush_side_degenerate m w si st h).1
      rwa [hstep] at this
    cases early with
    | true =>
      simp only [trace_brush_sides, hstep]
      exact ⟨hok', hz, fun _ => hearly rfl, hef, hq, hdeg⟩
    | false =>
      simp only [trace_brush_sides, hstep]
      obtain ⟨i1, i2, i3, i4, i5, i6⟩ := ih st' hok'
      exact ⟨i1, fun h0 => hz (i2 h0), i3, i4.trans hef, fun h => i5 (hq h),
        fun h => (i6 h).trans (hdeg h)⟩

/-- `trace_brush` never touches the segment, the box or the corner
table. -/
lemma trace_brush_geom (m : BspMap) (w : TraceWork) (brush : BspBrush) :
    same_geom (trace_brush m w brush) w := by
  simp only [trace_brush]
  split_ifs <;> exact ⟨rfl, rfl, rfl, rfl, rfl⟩

/-- `trace_brush` preserves the trace invariant. -/
lemma trace_brush_inv (m : BspMap) (brush : BspBrush) (w : TraceWork)
    (h : TraceInv w) : TraceInv (trace_brush m w brush) := by
  obtain ⟨hok, hz, hearly, hef, hq, hdeg⟩ :=
    trace_brush_sides_spec m w
      ((List.range brush.n_brushsides).map fun i => brush.brushside + i)
      ⟨-1, 1, none, w.flags⟩ h.flags_dom
  simp only [trace_brush]
  set r := trace_brush_sides m w
    ((List.range brush.n_brushsides).map fun i => brush.brushside + i)
    ⟨-1, 1, none, w.flags⟩ with hr
  by_cases he : r.2 = true
  · rw [if_pos he]
    exact ⟨h.frac_nonneg, h.frac_le_one, h.contact, hok,
      fun h0 => absurd h0 (hearly he), h.degenerate⟩
  · rw [if_neg he]
    by_cases hc : r.1.start_frac < r.1.end_frac ∧ r.1.start_frac > -1 ∧
        r.1.start_frac < w.frac
    · rw [if_pos hc]
      by_cases hzz : r.1.flags &&& (TW_STARTS_OUT ||| TW_ENDS_OUT) = 0
      · rw [if_pos hzz]
        exact ⟨le_refl 0, zero_le_one, Or.inr (Or.inl rfl), hok,
          fun _ => Or.inl rfl, fun _ => Or.inl rfl⟩
      · rw [if_neg hzz]
        have hsf1 : r.1.start_frac < 1 := lt_of_lt_of_le hc.1 hef
        have hqr : brush_q w r.1 := hq (Or.inl rfl)
        rcases hqr with hneg | ⟨_, p, hcp, hlt, hpos, hsf⟩
        · exact absurd hneg (ne_of_gt hc.2.1)
        · have hden : 0 < side_dist_start w p - side_dist_end w p :=
            sub_pos.mpr hlt
          have hdist : 0 < plane_dist_at w p (max r.1.start_frac 0) ∧
              plane_dist_at w p (max r.1.start_frac 0) ≤ SURF_CLIP_EPSILON := by
            rcases le_or_lt 0 r.1.start_frac with h0 | h0
            · have hval : plane_dist_at w p (max r.1.start_frac 0) =
                  SURF_CLIP_EPSILON := by
                rw [plane_dist_at_linear, max_eq_left h0, hsf]
                field_simp
                ring
              rw [hval]
              norm_num [SURF_CLIP_EPSILON]
            · have hval : plane_dist_at w p (max r.1.start_frac 0) =
                  side_dist_start w p := by
                rw [plane_dist_at_linear, max_eq_right h0.le]
                ring
              rw [hval]
              rw [hsf] at h0
              rcases div_neg_iff.mp h0 with ⟨hn, hd⟩ | ⟨hn, hd⟩
              · linarith
              · exact ⟨hpos, by linarith⟩
          exact ⟨le_max_right _ 0, max_le hsf1.le zero_le_one,
            Or.inr (Or.inr ⟨p, hcp, hdist.1, hdist.2⟩), hok,
            fun h0 => absurd (by rw [show r.1.flags = 0 from h0]; decide) hzz,
            fun hse => absurd (hdeg hse) (ne_of_gt hc.2.1)⟩
    · rw [if_neg hc]
      by_cases hzz : r.1.flags &&& (TW_STARTS_OUT ||| TW_ENDS_OUT) = 0
      · rw [if_pos hzz]
        exact ⟨le_refl 0, zero_le_one, Or.inr (Or.inl rfl), hok,
          fun _ => Or.inl rfl, fun _ => Or.inl rfl⟩
      · rw [if_neg hzz]
        exact ⟨h.frac_nonneg, h.frac_le_one, h.contact, hok,
          fun h0 => absurd (by rw [show r.1.flags = 0 from h0]; decide) hzz,
          h.degenerate⟩

/-- `trace_leaf_brushes` preserves the geometry fields. -/
lemma trace_leaf_brushes_geom (m : BspMap) (lbs : List Nat) :
    ∀ w, same_geom (trace_leaf_brushes m lbs w) w := by
  induction lbs with
  | nil => exact fun w => ⟨rfl, rfl, rfl, rfl, rfl⟩
  | cons lb rest ih =>
    intro w
    simp only [trace_leaf_brushes]
    split_ifs with h1 h2
    · exact trace_brush_geom m w _
    · obtain ⟨g1, g2, g3, g4, g5⟩ := ih (trace_brush m w _)
      obtain ⟨b1, b2, b3, b4, b5⟩ := trace_brush_geom m w
        (m.brushes.getD (m.leafbrushes.getD lb 0) default)
      exact ⟨g1.trans b1, g2.trans b2, g3.trans b3, g4.trans b4, g5.trans b5⟩
    · exact ih w

/-- `trace_leaf_brushes` preserves the trace invariant. -/
lemma trace_leaf_brushes_inv (m : BspMap) (lbs : List Nat) :
    ∀ w, TraceInv w → TraceInv (trace_leaf_brushes m lbs w) := by
  induction lbs with
  | nil => exact fun w h => h
  | cons lb rest ih =>
    intro w h
    simp only [trace_leaf_brushes]
    split_ifs with h1 h2
    · exact trace_brush_inv m _ w h
    · exact ih _ (trace_brush_inv m _ w h)
    · exact ih w h

/-- `trace_leaf` preserves the geometry fields. -/
lemma trace_leaf_geom (m : BspMap) (w : TraceWork) (index : Nat) :
    same_geom (trace_leaf m w index) w :=
  trace_leaf_brushes_geom m _ w

/-- `trace_leaf` preserves the trace invariant. -/
lemma trace_leaf_inv (m : BspMap) (w : TraceWork) (index : Nat)
    (h : TraceInv w) : TraceInv (trace_leaf m w index) :=
  trace_leaf_brushes_inv m _ w h

/-- `same_geom` is transitive. -/
lemma same_geom_trans {a b c : TraceWork} (h1 : same_geom a b)
    (h2 : same_geom b c) : same_geom a c :=
  ⟨h1.1.trans h2.1, h1.2.1.trans h2.2.1, h1.2.2.1.trans h2.2.2.1,
    h1.2.2.2.1.trans h2.2.2.2.1, h1.2.2.2.2.trans h2.2.2.2.2⟩

/-- `trace_node` preserves the geometry fields. -/
lemma trace_node_geom (m : BspMap) :
    ∀ (fuel : Nat) (w : TraceWork) (index : Int) (sf ef : ℚ) (p1 p2 : Vec3),
      same_geom (trace_node m fuel w index sf ef p1 p2) w := by
  intro fuel
  induction fuel with
  | zero => exact fun w _ _ _ _ _ => ⟨rfl, rfl, rfl, rfl, rfl⟩
  | succ fuel ih =>
    intro w index sf ef p1 p2
    simp only [trace_node]
    split_ifs
    all_goals first
      | exact trace_leaf_geom m w _
      | exact ih w _ _ _ _ _
      | exact same_geom_trans (ih _ _ _ _ _ _) (ih w _ _ _ _ _)

/-- `trace_node` preserves the trace invariant. -/
lemma trace_node_inv (m : BspMap) :
    ∀ (fuel : Nat) (w : TraceWork) (index : Int) (sf ef : ℚ) (p1 p2 : Vec3),
      TraceInv w → TraceInv (trace_node m fuel w index sf ef p1 p2) := by
  intro fuel
  induction fuel with
  | zero => exact fun w _ _ _ _ _ h => h
  | succ fuel ih =>
    intro w index sf ef p1 p2 h
    simp only [trace_node]
    split_ifs
    all_goals first
      | exact trace_leaf_inv m w _ h
      | exact ih w _ _ _ _ _ h
      | exact ih _ _ _ _ _ _ (ih w _ _ _ _ _ h)

/-- The prepared work state satisfies the invariant. -/
lemma trace_setup_inv (s e mins maxs : Vec3) :
    TraceInv (trace_setup s e mins maxs) :=
  ⟨zero_le_one, le_refl 1, Or.inl rfl, Or.inl rfl, fun _ => Or.inr rfl,
    fun _ => Or.inr rfl⟩

/-- The work state after the descent satisfies the invariant. -/
lemma trace_work_result_inv (m : BspMap) (fuel : Nat) (s e mins maxs : Vec3) :
    TraceInv (trace_work_result m fuel s e mins maxs) :=
  trace_node_inv m fuel _ 0 0 1 _ _ (trace_setup_inv s e mins maxs)

/-- The descent keeps the geometry fields of the prepared state. -/
lemma trace_work_result_geom (m : BspMap) (fuel : Nat) (s e mins maxs : Vec3) :
    same_geom (trace_work_result m fuel s e mins maxs)
      (trace_setup s e mins maxs) :=
  trace_node_geom m fuel _ 0 0 1 _ _

/-- `trace` only adds the endpos to the descent result. -/
lemma trace_eq_ite (m : BspMap) (fuel : Nat) (s e mins maxs : Vec3) :
    trace m fuel s e mins maxs =
      (if (trace_work_result m fuel s e mins maxs).frac = 1 then
        { trace_work_result m fuel s e mins maxs with endpos := e }
      else
        { trace_work_result m fuel s e mins maxs with
          endpos := add3 s (mul3_scalar (sub3 e s)
            (trace_work_result m fuel s e mins maxs).frac) }) := rfl

/-- The final `frac` is the descent's `frac`. -/
lemma trace_frac_eq (m : BspMap) (fuel : Nat) (s e mins maxs : Vec3) :
    (trace m fuel s e mins maxs).frac =
      (trace_work_result m fuel s e mins maxs).frac := by
  rw [trace_eq_ite]
  split_ifs <;> rfl

/-- The final `flags` are the descent's `flags`. -/
lemma trace_flags_eq (m : BspMap) (fuel : Nat) (s e mins maxs : Vec3) :
    (trace m fuel s e mins maxs).flags =
      (trace_work_result m fuel s e mins maxs).flags := by
  rw [trace_eq_ite]
  split_ifs <;> rfl

/-- The final `plane` is the descent's `plane`. -/
lemma trace_plane_eq (m : BspMap) (fuel : Nat) (s e mins maxs : Vec3) :
    (trace m fuel s e mins maxs).plane =
      (trace_work_result m fuel s e mins maxs).plane := by
  rw [trace_eq_ite]
  split_ifs <;> rfl

/-- The final state keeps the descent's geometry fields. -/
lemma trace_geom (m : BspMap) (fuel : Nat) (s e mins maxs : Vec3) :
    same_geom (trace m fuel s e mins maxs)
      (trace_work_result m fuel s e mins maxs) := by
  rw [trace_eq_ite]
  split_ifs <;> exact ⟨rfl, rfl, rfl, rfl, rfl⟩

/-- `plane_dist_at` only depends on the geometry fields. -/
lemma plane_dist_at_congr (a b : TraceWork) (h : same_geom a b) (p : BspPlane)
    (t : ℚ) : plane_dist_at a p t = plane_dist_at b p t := by
  obtain ⟨h1, h2, _, _, h5⟩ := h
  simp [plane_dist_at, point_at, h1, h2, h5]

/-- C1: every trace yields `frac ∈ [0,1]`, and `endpos` is computed from
the unshifted caller segment: `start + frac·(end - start)` when
`frac < 1` and exactly `end` when `frac = 1`. -/
theorem trace_frac_unit_endpos (m : BspMap) (fuel : Nat)
    (start end_ mins maxs : Vec3) :
    0 ≤ (trace m fuel start end_ mins maxs).frac ∧
    (trace m fuel start end_ mins maxs).frac ≤ 1 ∧
    (trace m fuel start end_ mins maxs).endpos =
      (if (trace m fuel start end_ mins maxs).frac = 1 then end_
        else add3 start (mul3_scalar (sub3 end_ start)
          (trace m fuel start end_ mins maxs).frac)) := by
  have hinv := trace_work_result_inv m fuel start end_ mins maxs
  have hfr := trace_frac_eq m fuel start end_ mins maxs
  refine ⟨by rw [hfr]; exact hinv.frac_nonneg, by rw [hfr]; exact hinv.frac_le_one, ?_⟩
  rw [hfr]
  by_cases h1 : (trace_work_result m fuel start end_ mins maxs).frac = 1
  · rw [if_pos h1, trace_eq_ite, if_pos h1]
  · rw [if_neg h1, trace_eq_ite, if_neg h1]

/-- C2 (amended): whenever `0 < frac < 1` the committed clip plane is
recorded (non-null) and the recentred trace point at `frac` — which is
`endpos` shifted by the hitbox centring offset — sits strictly on the
open side of the hitbox-adjusted plane, within SURF_CLIP_EPSILON of it.
(When `frac = 0` the embedded-in-solid zeroing may leave no plane; see
the counterexample.) -/
theorem trace_contact_plane (m : BspMap) (fuel : Nat)
    (start end_ mins maxs : Vec3)
    (hpos : 0 < (trace m fuel start end_ mins maxs).frac)
    (hlt : (trace m fuel start end_ mins maxs).frac < 1) :
    ∃ p, (trace m fuel start end_ mins maxs).plane = some p ∧
      0 < plane_dist_at (trace m fuel start end_ mins maxs) p
        (trace m fuel start end_ mins maxs).frac ∧
      plane_dist_at (trace m fuel start end_ mins maxs) p
        (trace m fuel start end_ mins maxs).frac ≤ SURF_CLIP_EPSILON ∧
      point_at (trace m fuel start end_ mins maxs)
        (trace m fuel start end_ mins maxs).frac =
        add3 (trace m fuel start end_ mins maxs).endpos
          (center_offset mins maxs) := by
  have hinv := trace_work_result_inv m fuel start end_ mins maxs
  have hfr := trace_frac_eq m fuel start end_ mins maxs
  have hg := trace_geom m fuel start end_ mins maxs
  have hg2 := trace_work_result_geom m fuel start end_ mins maxs
  have hne1 : ¬(trace_work_result m fuel start end_ mins maxs).frac = 1 := by
    rw [← hfr]
    exact ne_of_lt hlt
  rcases hinv.contact with h1 | h0 | ⟨p, hp, hd1, hd2⟩
  · exact absurd h1 hne1
  · rw [← hfr] at h0
    exact absurd h0 (ne_of_gt hpos)
  · have hdist : plane_dist_at (trace m fuel start end_ mins maxs) p
        (trace m fuel start end_ mins maxs).frac =
        plane_dist_at (trace_work_result m fuel start end_ mins maxs) p
          (trace_work_result m fuel start end_ mins maxs).frac := by
      rw [hfr, plane_dist_at_congr _ _ hg]
    refine ⟨p, ?_, ?_, ?_, ?_⟩
    · rw [trace_plane_eq]
      exact hp
    · rw [hdist]
      exact hd1
    · rw [hdist]
      exact hd2
    · have hstart : (trace m fuel start end_ mins maxs).start =
          add3 start (center_offset mins maxs) :=
        (same_geom_trans hg hg2).1
      have hend : (trace m fuel start end_ mins maxs).end_ =
          add3 end_ (center_offset mins maxs) :=
        (same_geom_trans hg hg2).2.1
      have hendpos : (trace m fuel start end_ mins maxs).endpos =
          add3 start (mul3_scalar (sub3 end_ start)
            (trace m fuel start end_ mins maxs).frac) := by
        rw [trace_eq_ite, if_neg hne1]
      simp only [point_at, hstart, hend, hendpos, add3, sub3, mul3_scalar,
        center_offset, Vec3.mk.injEq]
      refine ⟨by ring, by ring, by ring⟩

/-- C3 (amended): the ALL_SOLID flag is never set by the tracer; when no
brushside ever observed STARTS_OUT or ENDS_OUT the trace's `frac` is 0
(0 forced by the embedded-in-solid zeroing of `trace_brush`) unless no
solid brush clipped at all (`frac` still 1); a degenerate trace with
`start == end` likewise ends with `frac = 1` or `frac = 0`. -/
theorem trace_embedded_behaviour (m : BspMap) (fuel : Nat)
    (start end_ mins maxs : Vec3) :
    (trace m fuel start end_ mins maxs).flags &&& TW_ALL_SOLID = 0 ∧
    ((trace m fuel start end_ mins maxs).flags &&&
        (TW_STARTS_OUT ||| TW_ENDS_OUT) = 0 →
      (trace m fuel start end_ mins maxs).frac = 0 ∨
        (trace m fuel start end_ mins maxs).frac = 1) ∧
    (start = end_ →
      (trace m fuel start end_ mins maxs).frac = 0 ∨
        (trace m fuel start end_ mins maxs).frac = 1) := by
  have hinv := trace_work_result_inv m fuel start end_ mins maxs
  have hfr := trace_frac_eq m fuel start end_ mins maxs
  have hfl := trace_flags_eq m fuel start end_ mins maxs
  refine ⟨?_, ?_, ?_⟩
  · rw [hfl]
    exact flags_ok_all_solid _ hinv.flags_dom
  · intro hz
    rw [hfl] at hz
    rw [hfr]
    exact hinv.embedded (flags_ok_zero_of_and _ hinv.flags_dom hz)
  · intro hse
    rw [hfr]
    apply hinv.degenerate
    have hg2 := trace_work_result_geom m fuel start end_ mins maxs
    rw [hg2.1, hg2.2.1]
    simp [trace_setup, hse]

/-- The degenerate point trace embedded in the solid brush of `boxMap`:
both endpoints inside, so no flag is ever raised, `frac` is zeroed, and
no plane is recorded. -/
lemma trace_embedded_eval :
    (trace boxMap 3 ⟨0, 0, -5⟩ ⟨0, 0, -5⟩ vzero vzero).frac = 0 ∧
    (trace boxMap 3 ⟨0, 0, -5⟩ ⟨0, 0, -5⟩ vzero vzero).flags = 0 ∧
    (trace boxMap 3 ⟨0, 0, -5⟩ ⟨0, 0, -5⟩ vzero vzero).plane = none := by
  norm_num +decide [trace, trace_work_result, trace_node, trace_setup,
    trace_leaf, trace_leaf_brushes, trace_brush, trace_brush_sides,
    trace_brush_side, side_dist_start, side_dist_end, boxMap, dot3, add3,
    sub3, mul3_scalar, vzero, center_offset, signbits_for_normal,
    plane_type_for_normal, Vec3.nth, SURF_CLIP_EPSILON, CONTENTS_SOLID,
    TW_STARTS_OUT, TW_ENDS_OUT, List.range_succ, List.range_zero, List.getD]

/-- The clipping point trace on `boxMap` stops at fraction 79/160. -/
lemma trace_clip_frac_eval :
    (trace boxMap 3 ⟨0, 0, 10⟩ ⟨0, 0, -10⟩ vzero vzero).frac = 79/160 := by
  norm_num +decide [trace, trace_work_result, trace_node, trace_setup,
    trace_leaf, trace_leaf_brushes, trace_brush, trace_brush_sides,
    trace_brush_side, side_dist_start, side_dist_end, boxMap, dot3, add3,
    sub3, mul3_scalar, vzero, center_offset, signbits_for_normal,
    plane_type_for_normal, Vec3.nth, SURF_CLIP_EPSILON, CONTENTS_SOLID,
    TW_STARTS_OUT, TW_ENDS_OUT, List.range_succ, List.range_zero, List.getD]

/-- C2 witness: the clipping point trace on `boxMap` hits the floor
plane with `0 < frac < 1`. -/
theorem trace_contact_plane_witness :
    0 < (trace boxMap 3 ⟨0, 0, 10⟩ ⟨0, 0, -10⟩ vzero vzero).frac ∧
    (trace boxMap 3 ⟨0, 0, 10⟩ ⟨0, 0, -10⟩ vzero vzero).frac < 1 ∧
    ∃ p, (trace boxMap 3 ⟨0, 0, 10⟩ ⟨0, 0, -10⟩ vzero vzero).plane = some p ∧
      0 < plane_dist_at (trace boxMap 3 ⟨0, 0, 10⟩ ⟨0, 0, -10⟩ vzero vzero) p
        (trace boxMap 3 ⟨0, 0, 10⟩ ⟨0, 0, -10⟩ vzero vzero).frac ∧
      plane_dist_at (trace boxMap 3 ⟨0, 0, 10⟩ ⟨0, 0, -10⟩ vzero vzero) p
        (trace boxMap 3 ⟨0, 0, 10⟩ ⟨0, 0, -10⟩ vzero vzero).frac ≤
        SURF_CLIP_EPSILON ∧
      point_at (trace boxMap 3 ⟨0, 0, 10⟩ ⟨0, 0, -10⟩ vzero vzero)
        (trace boxMap 3 ⟨0, 0, 10⟩ ⟨0, 0, -10⟩ vzero vzero).frac =
        add3 (trace boxMap 3 ⟨0, 0, 10⟩ ⟨0, 0, -10⟩ vzero vzero).endpos
          (center_offset vzero vzero) := by
  have h1 : 0 < (trace boxMap 3 ⟨0, 0, 10⟩ ⟨0, 0, -10⟩ vzero vzero).frac := by
    rw [trace_clip_frac_eval]
    norm_num
  have h2 : (trace boxMap 3 ⟨0, 0, 10⟩ ⟨0, 0, -10⟩ vzero vzero).frac < 1 := by
    rw [trace_clip_frac_eval]
    norm_num
  exact ⟨h1, h2, trace_contact_plane boxMap 3 ⟨0, 0, 10⟩ ⟨0, 0, -10⟩ vzero vzero h1 h2⟩

/-- C2 counterexample: the embedded degenerate trace has `frac = 0 < 1`
but records no contact plane, refuting the claim that `frac < 1` always
comes with a non-null plane. -/
theorem trace_plane_missing_when_embedded :
    (trace boxMap 3 ⟨0, 0, -5⟩ ⟨0, 0, -5⟩ vzero vzero).frac < 1 ∧
    (trace boxMap 3 ⟨0, 0, -5⟩ ⟨0, 0, -5⟩ vzero vzero).plane = none := by
  obtain ⟨h1, _, h3⟩ := trace_embedded_eval
  exact ⟨by rw [h1]; norm_num, h3⟩

/-- C3 counterexample: a move that both starts and ends inside solid
(no brushside ever set STARTS_OUT or ENDS_OUT) ends with `frac = 0` but
with the ALL_SOLID bit still clear — the source never sets
TW_ALL_SOLID, refuting the claim that the flag gets set. -/
theorem trace_all_solid_flag_never_set :
    (trace boxMap 3 ⟨0, 0, -5⟩ ⟨0, 0, -5⟩ vzero vzero).frac = 0 ∧
    (trace boxMap 3 ⟨0, 0, -5⟩ ⟨0, 0, -5⟩ vzero vzero).flags &&&
      (TW_STARTS_OUT ||| TW_ENDS_OUT) = 0 ∧
    (trace boxMap 3 ⟨0, 0, -5⟩ ⟨0, 0, -5⟩ vzero vzero).flags &&&
      TW_ALL_SOLID = 0 := by
  obtain ⟨h1, h2, _⟩ := trace_embedded_eval
  exact ⟨h1, by rw [h2]; decide, by rw [h2]; decide⟩

end Q3
